import Mathlib

/-!
Verification development for the NKN chain store
(`chain/store/store.go`): a shallow embedding of the ledger-store
coordinator (persist / SaveBlock / read API / donation accounting) and
proofs of its specified properties.

External collaborators (key-value engine, state trie, wire encodings,
header cache, configuration) are modelled as explicit parameters or as
typed values, following the specification's component boundaries.
-/

namespace NknStore

/-- 256-bit digests (`common.Uint256`) are modelled as natural numbers;
`common.EmptyUint256` is `0`. The cryptographic content hash is modelled
as an injective encoding (collision-free idealization). -/
abbrev Uint256 := Nat

/-! ### Transaction payload types

Modelled from the spec: the `pb` payload-type enum is external to the
store; the store recognizes exactly eleven kinds (coinbase,
signature-chain, transfer, issue, register/transfer/delete-name,
subscribe/unsubscribe, generate-id, nano-pay). The numeric tags are
modelled as distinct naturals; any other tag is unrecognized. -/

def COINBASE_TYPE : Nat := 0
def SIG_CHAIN_TXN_TYPE : Nat := 1
def TRANSFER_ASSET_TYPE : Nat := 2
def ISSUE_ASSET_TYPE : Nat := 3
def REGISTER_NAME_TYPE : Nat := 4
def TRANSFER_NAME_TYPE : Nat := 5
def DELETE_NAME_TYPE : Nat := 6
def SUBSCRIBE_TYPE : Nat := 7
def UNSUBSCRIBE_TYPE : Nat := 8
def GENERATE_ID_TYPE : Nat := 9
def NANO_PAY_TYPE : Nat := 10

/-- The `switch txn.UnsignedTx.Payload.Type` in `persist`
(store.go:313-327): true exactly on the eleven recognized kinds. -/
def recognizedTxnType (t : Nat) : Bool :=
  t = COINBASE_TYPE || t = SIG_CHAIN_TXN_TYPE || t = TRANSFER_ASSET_TYPE ||
  t = ISSUE_ASSET_TYPE || t = REGISTER_NAME_TYPE || t = TRANSFER_NAME_TYPE ||
  t = DELETE_NAME_TYPE || t = SUBSCRIBE_TYPE || t = UNSUBSCRIBE_TYPE ||
  t = GENERATE_ID_TYPE || t = NANO_PAY_TYPE

/-- A transaction: its payload-type tag plus the rest of its wire content.
Modelled from the spec: transaction wire encoding is external, so the
remaining content is an opaque natural. -/
structure Transaction where
  payloadType : Nat
  body : Nat
deriving DecidableEq

/-- `txn.Marshal()` — Modelled from the spec: an invertible external
encoding; "bytes" throughout this model are `List Nat`. -/
def txMarshal (t : Transaction) : List Nat :=
  [t.payloadType, t.body]

/-- `txn.Unmarshal` — Modelled from the spec: inverse of `txMarshal`,
failing on data that is not a marshalled transaction. -/
def txUnmarshal (bs : List Nat) : Except String Transaction :=
  match bs with
  | [tag, body] => .ok ⟨tag, body⟩
  | _ => .error "failed to unmarshal transaction"

/-- `txn.Hash()` — Modelled from the spec: external content hash,
idealized as injective via the Cantor-style pairing. -/
def txHash (t : Transaction) : Uint256 :=
  Nat.pair t.payloadType t.body

/-- Block header: height, the declared state root as raw bytes
(`UnsignedHeader.StateRoot` is a byte slice), and the remaining opaque
header fields collapsed into one natural. -/
structure Header where
  height : Nat
  stateRoot : List Nat
  extra : Nat
deriving DecidableEq

/-- A block: header plus ordered transactions. -/
structure Block where
  header : Header
  transactions : List Transaction
deriving DecidableEq

/-- Little-endian base-256 value of a byte list (used by
`common.Uint256ParseFromBytes`, modelled below). -/
def fromLE (bs : List Nat) : Nat :=
  bs.foldr (fun b acc => b + 256 * acc) 0

/-- `b.Hash()` — Modelled from the spec: the block content hash is a
hash of the header; idealized as an injective-enough encoding of the
header fields. -/
def blockHash (b : Block) : Uint256 :=
  Nat.pair b.header.height (Nat.pair (fromLE b.header.stateRoot) b.header.extra)

/-- `common.Uint256ParseFromBytes` — Modelled from the spec: parses a
fixed-size (32-byte) digest, failing on any other length. -/
def uint256ParseFromBytes (bs : List Nat) : Except String Uint256 :=
  if bs.length = 32 then .ok (fromLE bs) else .error "invalid uint256 size"

/-- `binary.LittleEndian.PutUint32` (store.go:300-301): the 4-byte
little-endian encoding prepended to each stored transaction. -/
def putUint32LE (n : Nat) : List Nat :=
  [n % 256, n / 256 % 256, n / 65536 % 256, n / 16777216 % 256]

/-- `binary.LittleEndian.Uint32` (store.go:214): reads the first four
bytes, little-endian. -/
def getUint32LE (bs : List Nat) : Nat :=
  bs.getD 0 0 + 256 * bs.getD 1 0 + 65536 * bs.getD 2 0 + 16777216 * bs.getD 3 0

/-! ### Key-value store model -/

/-- The key namespaces used by the store (the `db.*Key` constructors).
Distinct constructors model the disjoint key prefixes. -/
inductive Key
  | versionKey
  | headerKey (h : Uint256)
  | blockhashKey (height : Nat)
  | transactionKey (h : Uint256)
  | currentStateTrie
  | currentBlockHashKey
  | donationKey (height : Nat)
  | trieRefCountHeightKey
  | triePrunedHeightKey
  | trieCompactHeightKey
deriving DecidableEq

/-- Stored values. `bytes` is used where store.go manipulates the raw
bytes itself (transaction records, version byte); the other
constructors are the outputs of external serializers
(`Block.Trim`, `Uint256.Serialize`, `serialization.WriteUint32`,
`Fixed64.Serialize`), modelled as typed data. -/
inductive Value
  | bytes (bs : List Nat)
  /-- output of `Block.Trim`: the header plus the transaction hashes
  (full transactions are stored separately). -/
  | headerData (hdr : Header) (txHashes : List Uint256)
  /-- a serialized `Uint256` on its own. -/
  | hashVal (h : Uint256)
  /-- serialized `Uint256` followed by a `WriteUint32` height
  (the current-block-hash record, store.go:367-373). -/
  | hashHeight (h : Uint256) (height : Nat)
  /-- output of `Donation.Serialize` (store.go:544-556). -/
  | donationRec (height : Nat) (amount : Int)
deriving DecidableEq

/-- The durable key-value map. `none` is the engine's NotFound. -/
def Store := Key → Option Value

/-- A single put, as applied at batch commit. -/
def storePut (st : Store) (k : Key) (v : Value) : Store :=
  fun q => if q = k then some v else st q

/-- Applying an atomic batch: all staged puts, in staging order. -/
def applyBatch (st : Store) : List (Key × Value) → Store
  | [] => st
  | (k, v) :: rest => applyBatch (storePut st k v) rest

/-- The account-state view (`StateDB`) — Modelled from the spec: a
versioned account-state trie exposed through balance lookups; only the
balance query (`GetOrNewAccount(addr).GetBalance(assetID)`) is consumed
by this coordinator's donation accounting. -/
structure StateDB where
  accountBalance : Nat → Nat → Int

/-- External collaborators of the coordinator, as functions.
Modelled from the spec:
`generateStateRoot` is the state view's transition function (applies a
block's transactions to the view at the parent root and yields a new
view and root, store.go:331); `newStateDB` constructs a view at a root;
`pruneLowMemory` is the low-memory pruning entry point;
`toScriptHash` decodes the configured donation address;
`commitErr` decides whether the engine's `BatchCommit` fails (on
failure the engine leaves durable storage unchanged — its atomicity
contract). -/
structure Env where
  generateStateRoot : Option StateDB → Block → Bool → Bool → Except String (StateDB × Uint256)
  newStateDB : Uint256 → Except String StateDB
  pruneLowMemory : Bool → Except String Unit
  toScriptHash : String → Except String Nat
  commitErr : Store → List (Key × Value) → Option String

/-- The configuration values consumed by the coordinator
(`config.*`), injected explicitly. -/
structure Config where
  DBVersion : Nat
  RewardAdjustInterval : Nat
  DonationAdjustDividendFactor : Int
  DonationAdjustDivisorFactor : Int
  DonationAddress : String
  NKNAssetID : Nat
  BlockHeaderCacheSize : Nat
  LivePruning : Bool
  StatePruningMode : String

/-- The `ChainStore` state: the durable map, the in-memory header cache
(modelled from the spec as a plain list of headers), the state-view
handle (`nil` until constructed, hence `Option`), and the in-memory
chain pointer. -/
structure ChainStore where
  st : Store
  headerCache : List Header
  States : Option StateDB
  currentBlockHash : Uint256
  currentBlockHeight : Nat

/-! ### Read API (store.go:152-264, 472-501) -/

/-- `GetHeader` (store.go:170-188): read the header record and decode it
(`ReadVarBytes` + `Header.Unmarshal`); any other stored shape is a
decode failure. -/
def GetHeader (cs : ChainStore) (h : Uint256) : Except String Header :=
  match cs.st (Key.headerKey h) with
  | some (Value.headerData hdr _) => .ok hdr
  | some _ => .error "header decode error"
  | none => .error "leveldb: not found"

/-- `GetBlockHash` (store.go:152-159): height-to-hash index lookup. -/
def GetBlockHash (cs : ChainStore) (height : Nat) : Except String Uint256 :=
  match cs.st (Key.blockhashKey height) with
  | some (Value.hashVal h) => .ok h
  | some _ => .error "invalid uint256 size"
  | none => .error "leveldb: not found"

/-- `getTx` (store.go:208-222): read the transaction record, take the
4-byte little-endian inclusion height, strip it, and unmarshal the
remainder. -/
def getTx (cs : ChainStore) (h : Uint256) : Except String (Transaction × Nat) :=
  match cs.st (Key.transactionKey h) with
  | some (Value.bytes value) =>
      let height := getUint32LE value
      (txUnmarshal (value.drop 4)).map (fun t => (t, height))
  | some _ => .error "tx decode error"
  | none => .error "leveldb: not found"

/-- The loop of `GetBlock` (store.go:235-239): fetch each transaction by
its hash from the trimmed block, first error wins. -/
def collectTxs (cs : ChainStore) : List Uint256 → Except String (List Transaction)
  | [] => .ok []
  | th :: rest =>
    match getTx cs th with
    | .error e => .error e
    | .ok (t, _) =>
      match collectTxs cs rest with
      | .error e => .error e
      | .ok ts => .ok (t :: ts)

/-- `GetBlock` (store.go:224-242): read the trimmed block
(`FromTrimmedData`), then reassemble the full transactions from their
separate records. -/
def GetBlock (cs : ChainStore) (h : Uint256) : Except String Block :=
  match cs.st (Key.headerKey h) with
  | some (Value.headerData hdr txHashes) =>
      match collectTxs cs txHashes with
      | .error e => .error e
      | .ok txs => .ok ⟨hdr, txs⟩
  | some _ => .error "FromTrimmedData error"
  | none => .error "leveldb: not found"

/-- `IsBlockInStore` (store.go:258-264): false when the header read
fails or the header's height exceeds the current chain height. -/
def IsBlockInStore (cs : ChainStore) (h : Uint256) : Bool :=
  match GetHeader cs h with
  | .error _ => false
  | .ok header => decide (header.height ≤ cs.currentBlockHeight)

/-- `getCurrentBlockHashFromDB` (store.go:476-487). -/
def getCurrentBlockHashFromDB (cs : ChainStore) : Except String (Uint256 × Nat) :=
  match cs.st Key.currentBlockHashKey with
  | some (Value.hashHeight h height) => .ok (h, height)
  | some _ => .error "deserialize error"
  | none => .error "leveldb: not found"

/-- `GetCurrentBlockStateRoot` (store.go:489-501). -/
def GetCurrentBlockStateRoot (cs : ChainStore) : Except String Uint256 :=
  match cs.st Key.currentStateTrie with
  | some (Value.hashVal h) => .ok h
  | some _ => .error "invalid uint256 size"
  | none => .error "leveldb: not found"

/-- `IsDoubleSpend` (store.go:468-470): the store performs no
double-spend detection. -/
def IsDoubleSpend (cs : ChainStore) (tx : Transaction) : Bool :=
  false

/-! ### Donation accounting (store.go:532-624) -/

/-- A donation record. `Height` is a `uint32` and `Amount` a `Fixed64`
(int64) in the source. -/
structure Donation where
  height : Nat
  amount : Int
deriving DecidableEq

/-- Wrap an integer into the signed 64-bit range (Go `int64`
overflow semantics for `Fixed64` multiplication). -/
def i64 (x : Int) : Int := (x + 2 ^ 63) % 2 ^ 64 - 2 ^ 63

/-- `getDonation` (store.go:581-596): read the donation record at the
current height rounded down to the adjustment-interval boundary. -/
def getDonation (cfg : Config) (cs : ChainStore) : Except String Donation :=
  let currentDonationHeight :=
    cs.currentBlockHeight / cfg.RewardAdjustInterval * cfg.RewardAdjustInterval
  match cs.st (Key.donationKey currentDonationHeight) with
  | some (Value.donationRec h a) => .ok ⟨h, a⟩
  | some _ => .error "donation decode error"
  | none => .error "leveldb: not found"

/-- `CalcNextDonation` (store.go:598-624). Height 0 yields the zero
record. Otherwise the previous record must sit exactly one adjustment
interval below (the sum is `uint32` arithmetic, hence the mod 2^32);
then the new per-block amount is the treasury balance times the
dividend factor, divided (truncated) by the divisor factor and by the
interval. A `nil` state view (a nil-pointer dereference in Go) is
modelled as an error. -/
def CalcNextDonation (cfg : Config) (env : Env) (cs : ChainStore) (height : Nat) :
    Except String Donation :=
  if height = 0 then .ok ⟨0, 0⟩
  else
    match getDonation cfg cs with
    | .error e => .error e
    | .ok lastDonation =>
      if (lastDonation.height + cfg.RewardAdjustInterval) % 2 ^ 32 ≠ height then
        .error "invalid height to update donation"
      else
        match env.toScriptHash cfg.DonationAddress with
        | .error e => .error e
        | .ok donationAddress =>
          match cs.States with
          | none => .error "nil state view"
          | some states =>
            let amount := states.accountBalance donationAddress cfg.NKNAssetID
            let donation :=
              Int.tdiv (i64 (amount * cfg.DonationAdjustDividendFactor))
                cfg.DonationAdjustDivisorFactor
            let donationPerBlock := Int.tdiv donation (Int.ofNat cfg.RewardAdjustInterval)
            .ok ⟨height, donationPerBlock⟩

/-! ### State-root range query (store.go:626-650) -/

/-- One iteration of the `GetStateRoots` loop: height-to-hash lookup,
header read, parse of the declared state root. -/
def stateRootAt (cs : ChainStore) (i : Nat) : Except String Uint256 :=
  match GetBlockHash cs i with
  | .error e => .error e
  | .ok headerHash =>
    match GetHeader cs headerHash with
    | .error e => .error e
    | .ok header => uint256ParseFromBytes header.stateRoot

/-- The `for i := fromHeight; i <= toHeight; i++` loop, by remaining
count. -/
def stateRootsLoop (cs : ChainStore) (i : Nat) : Nat → Except String (List Uint256)
  | 0 => .ok []
  | n + 1 =>
    match stateRootAt cs i with
    | .error e => .error e
    | .ok r =>
      match stateRootsLoop cs (i + 1) n with
      | .error e => .error e
      | .ok rs => .ok (r :: rs)

/-- `GetStateRoots` (store.go:626-650): inclusive range of declared
state roots; an inverted range fails. -/
def GetStateRoots (cs : ChainStore) (fromHeight toHeight : Nat) :
    Except String (List Uint256) :=
  if toHeight < fromHeight then .error "toHeight is less than fromHeight"
  else stateRootsLoop cs fromHeight (toHeight + 1 - fromHeight)

/-! ### Persistence pipeline (store.go:266-417) -/

/-- The transaction loop of `persist` (store.go:299-328): stage
`(height-prefix ++ marshalled tx)` under the transaction-hash key, and
validate the payload type against the recognized kinds. In the source
the `BatchPut` precedes the payload-type switch; since a batch that is
never committed is engine-internal and discarded, the staged list is
only materialized on success. -/
def stageTxs (height : Nat) : List Transaction → Except String (List (Key × Value))
  | [] => .ok []
  | txn :: rest =>
    let buffer := putUint32LE height ++ txMarshal txn
    if recognizedTxnType txn.payloadType then
      match stageTxs height rest with
      | .error e => .error e
      | .ok l => .ok ((Key.transactionKey (txHash txn), Value.bytes buffer) :: l)
    else .error "unsupported transaction type"

/-- The deterministic state-root mismatch error (store.go:341), naming
the computed root and the header's declared root. -/
def stateRootMismatchMsg (root headerRoot : Uint256) : String :=
  "state root not equal:" ++ Nat.repr root ++ ", " ++ Nat.repr headerRoot

/-- The full batch staged by `persist` for block `b`, in staging order:
trimmed header, height-to-hash index, transaction records, current
state root, donation record (when at an interval boundary), and the
chain-pointer record last. -/
def persistBatch (b : Block) (txPuts : List (Key × Value)) (root : Uint256)
    (donationPuts : List (Key × Value)) : List (Key × Value) :=
  (Key.headerKey (blockHash b),
    Value.headerData b.header (b.transactions.map txHash)) ::
  (Key.blockhashKey b.header.height, Value.hashVal (blockHash b)) ::
  (txPuts ++
    ((Key.currentStateTrie, Value.hashVal root) ::
      (donationPuts ++
        [(Key.currentBlockHashKey, Value.hashHeight (blockHash b) b.header.height)])))

/-- The donation staging step of `persist` (store.go:349-365): at an
adjustment-interval boundary, compute the next donation record and
stage its put; otherwise stage nothing. -/
def donationStage (cfg : Config) (env : Env) (cs : ChainStore) (hgt : Nat) :
    Except String (List (Key × Value)) :=
  if hgt % cfg.RewardAdjustInterval = 0 then
    match CalcNextDonation cfg env cs hgt with
    | .error e => .error e
    | .ok d => .ok [(Key.donationKey hgt, Value.donationRec d.height d.amount)]
  else .ok []

/-- `persist` (store.go:266-386): build one atomic batch (trimmed
header, height-to-hash index, transactions, current state root,
donation record at interval boundaries, chain-pointer record), gated by
payload-type validation and the computed-vs-declared state-root
comparison; commit it; on success replace the state-view handle. On any
error the batch is not committed, so the returned store is the input
store unchanged. -/
def persist (cfg : Config) (env : Env) (cs : ChainStore) (b : Block) :
    ChainStore × Option String :=
  match stageTxs b.header.height b.transactions with
  | .error e => (cs, some e)
  | .ok txPuts =>
    match env.generateStateRoot cs.States b (b.header.height != 0) true with
    | .error e => (cs, some e)
    | .ok (states, root) =>
      match uint256ParseFromBytes b.header.stateRoot with
      | .error e => (cs, some e)
      | .ok headerRoot =>
        if root ≠ headerRoot then (cs, some (stateRootMismatchMsg root headerRoot))
        else
          match donationStage cfg env cs b.header.height with
          | .error e => (cs, some e)
          | .ok donationPuts =>
            match env.commitErr cs.st (persistBatch b txPuts root donationPuts) with
            | some e => (cs, some e)
            | none =>
              ({ cs with st := applyBatch cs.st (persistBatch b txPuts root donationPuts),
                         States := some states }, none)

/-- The post-commit pointer/cache update of `SaveBlock`
(store.go:395-403): advance the in-memory chain pointer to `b`, evict
the header falling out of the bounded cache window, and insert `b`'s
header. -/
def advancePointer (cfg : Config) (cs1 : ChainStore) (b : Block) : ChainStore :=
  { cs1 with
    currentBlockHeight := b.header.height,
    currentBlockHash := blockHash b,
    headerCache := b.header ::
      (if cfg.BlockHeaderCacheSize < b.header.height then
        cs1.headerCache.filter
          (fun hdr => hdr.height ≠ b.header.height - cfg.BlockHeaderCacheSize)
      else cs1.headerCache) }

/-- `SaveBlock` (store.go:388-417): persist, then advance the in-memory
chain pointer under the lock, maintain the header cache, and optionally
run the incremental pruning pass. The `fastAdd` parameter is unused in
the source. -/
def SaveBlock (cfg : Config) (env : Env) (cs : ChainStore) (b : Block) (fastAdd : Bool) :
    ChainStore × Option String :=
  match persist cfg env cs b with
  | (cs1, some e) => (cs1, some e)
  | (cs1, none) =>
    if cfg.LivePruning then
      if cfg.StatePruningMode = "lowmem" then
        match env.pruneLowMemory false with
        | .error e => (advancePointer cfg cs1 b, some e)
        | .ok _ => (advancePointer cfg cs1 b, none)
      else (advancePointer cfg cs1 b, none)
    else (advancePointer cfg cs1 b, none)

/-- The version byte read at startup (store.go:68-75): a missing or
unreadable version record is treated as version 0. -/
def dbVersionByte (cs : ChainStore) : Nat :=
  match cs.st Key.versionKey with
  | some (Value.bytes (v :: _)) => v
  | _ => 0

/-- `InitLedgerStoreWithGenesisBlock` (store.go:67-142). On a version
mismatch: reset the database, build a fresh state view, persist the
genesis block, record the version, and point at genesis. Otherwise:
require genesis in store, load the chain pointer, cache the current
header, read the current state root — a failure of that read returns
height 0 with no error (the error is swallowed and no state view is
constructed) — then build the state view and run the configured
pruning mode. -/
def InitLedgerStoreWithGenesisBlock (cfg : Config) (env : Env) (cs : ChainStore)
    (genesisBlock : Block) : ChainStore × Nat × Option String :=
  if dbVersionByte cs ≠ cfg.DBVersion then
    let cs1 := { cs with st := fun _ => none }
    match env.newStateDB 0 with
    | .error e => (cs1, 0, some e)
    | .ok stdb =>
      let cs2 := { cs1 with States := some stdb }
      match persist cfg env cs2 genesisBlock with
      | (cs3, some e) => (cs3, 0, some e)
      | (cs3, none) =>
        let cs4 := { cs3 with
          st := storePut cs3.st Key.versionKey (Value.bytes [cfg.DBVersion]),
          headerCache := genesisBlock.header :: cs3.headerCache,
          currentBlockHash := blockHash genesisBlock,
          currentBlockHeight := 0 }
        (cs4, 0, none)
  else
    if IsBlockInStore cs (blockHash genesisBlock) then
      match getCurrentBlockHashFromDB cs with
      | .error e => (cs, 0, some e)
      | .ok (h, height) =>
        let cs1 := { cs with currentBlockHash := h, currentBlockHeight := height }
        match GetHeader cs1 h with
        | .error e => (cs1, 0, some e)
        | .ok currentHeader =>
          let cs2 := { cs1 with headerCache := currentHeader :: cs1.headerCache }
          match GetCurrentBlockStateRoot cs2 with
          | .error _ => (cs2, 0, none)
          | .ok root =>
            match env.newStateDB root with
            | .error e => (cs2, 0, some e)
            | .ok stdb =>
              let cs3 := { cs2 with States := some stdb }
              match (if cfg.StatePruningMode = "lowmem" then env.pruneLowMemory true
                     else if cfg.StatePruningMode = "none" then .ok ()
                     else .error ("unknown state pruning mode " ++ cfg.StatePruningMode)) with
              | .error e => (cs3, 0, some e)
              | .ok _ => (cs3, cs3.currentBlockHeight, none)
    else (cs, 0, some "genesisBlock is NOT in BlockStore")

/-! ### Concrete instances (used to evaluate the model on closed inputs) -/

/-- 32 zero bytes: a declared state root parsing to `0`. -/
def rootBytes0 : List Nat := List.replicate 32 0

/-- 32 bytes parsing to the digest `2`. -/
def rootBytes2 : List Nat := 2 :: List.replicate 31 0

/-- A state view with all balances zero. -/
def stdb0 : StateDB := ⟨fun _ _ => 0⟩

/-- A state view where every account holds 1000 units. -/
def stdb1 : StateDB := ⟨fun _ _ => 1000⟩

/-- A sample configuration: schema version 1, reward interval 4,
dividend factor 3, divisor factor 7, no live pruning. -/
def cfg0 : Config :=
  ⟨1, 4, 3, 7, "NKNaddr", 0, 10, false, "none"⟩

/-- Collaborators whose state transition always yields root 0 and whose
batch commits always succeed. -/
def env0 : Env :=
  ⟨fun _ _ _ _ => .ok (stdb0, 0), fun _ => .ok stdb0, fun _ => .ok (),
   fun _ => .ok 9, fun _ _ => none⟩

/-- Like `env0` but the state transition yields root 1. -/
def env1 : Env :=
  { env0 with generateStateRoot := fun _ _ _ _ => .ok (stdb0, 1) }

/-- A freshly opened store: empty durable map, empty cache, no state
view, zero chain pointer. -/
def cs0 : ChainStore := ⟨fun _ => none, [], none, 0, 0⟩

/-- A genesis-style header whose declared root is 0. -/
def hdrG : Header := ⟨0, rootBytes0, 0⟩

/-- A block whose declared root matches `env0`'s computed root and whose
single transaction is a coinbase. -/
def bGood : Block := ⟨hdrG, [⟨COINBASE_TYPE, 55⟩]⟩

/-- A block at height 1 declaring root 2 with no transactions. -/
def bMism : Block := ⟨⟨1, rootBytes2, 0⟩, []⟩

/-- A block at height 1 declaring root 2 whose only transaction carries
the unrecognized payload tag 99. -/
def bBad : Block := ⟨⟨1, rootBytes2, 0⟩, [⟨99, 0⟩]⟩

/-- A header at height 2 declaring root 2. -/
def hdrB : Header := ⟨2, rootBytes2, 5⟩

/-- A store holding `hdrB` under hash 42 at height 2, with chain height
5. -/
def csB : ChainStore :=
  ⟨fun k =>
    if k = Key.headerKey 42 then some (Value.headerData hdrB [])
    else if k = Key.blockhashKey 2 then some (Value.hashVal 42)
    else none,
   [], none, 0, 5⟩

/-- A store at chain height 3 holding a donation record of height 0 and
amount 7, with state view `stdb1`. -/
def csD : ChainStore :=
  ⟨fun k =>
    if k = Key.donationKey 0 then some (Value.donationRec 0 7) else none,
   [], some stdb1, 0, 3⟩

/-- A store whose schema version matches `cfg0`, holding the genesis
header and chain-pointer record but no current-state-root record. -/
def csI : ChainStore :=
  ⟨fun k =>
    if k = Key.versionKey then some (Value.bytes [1])
    else if k = Key.headerKey (blockHash bGood) then some (Value.headerData hdrG [])
    else if k = Key.currentBlockHashKey then some (Value.hashHeight (blockHash bGood) 0)
    else none,
   [], none, 0, 0⟩

/-! ## Helper lemmas -/

theorem storePut_self (st : Store) (k : Key) (v : Value) : storePut st k v k = some v := by
  simp [storePut]

theorem storePut_ne (st : Store) (k q : Key) (v : Value) (h : q ≠ k) :
    storePut st k v q = st q := by
  simp [storePut, h]

theorem applyBatch_append (l₁ l₂ : List (Key × Value)) (st : Store) :
    applyBatch st (l₁ ++ l₂) = applyBatch (applyBatch st l₁) l₂ := by
  induction l₁ generalizing st with
  | nil => rfl
  | cons p rest ih => cases p; simp [applyBatch, ih]

theorem applyBatch_not_mem (l : List (Key × Value)) (st : Store) (k : Key)
    (h : ∀ p ∈ l, p.1 ≠ k) : applyBatch st l k = st k := by
  induction l generalizing st with
  | nil => rfl
  | cons p rest ih =>
    cases p with
    | mk pk pv =>
      rw [applyBatch, ih _ (fun q hq => h q (List.mem_cons_of_mem _ hq))]
      exact storePut_ne st pk k pv fun hk => h (pk, pv) (List.mem_cons_self _ _) hk.symm

theorem txHash_inj {t₁ t₂ : Transaction} (h : txHash t₁ = txHash t₂) : t₁ = t₂ := by
  unfold txHash at h
  have h2 := Nat.pair_eq_pair.mp h
  cases t₁; cases t₂
  simp_all

theorem stageTxs_eq_of_recognized (hgt : Nat) (txs : List Transaction)
    (h : ∀ t ∈ txs, recognizedTxnType t.payloadType = true) :
    stageTxs hgt txs = .ok (txs.map fun u =>
      (Key.transactionKey (txHash u), Value.bytes (putUint32LE hgt ++ txMarshal u))) := by
  induction txs with
  | nil => rfl
  | cons t rest ih =>
    rw [stageTxs, if_pos (h t (List.mem_cons_self t rest)),
      ih (fun u hu => h u (List.mem_cons_of_mem t hu))]
    simp

theorem stageTxs_ok_inv (hgt : Nat) (txs : List Transaction) (l : List (Key × Value))
    (h : stageTxs hgt txs = .ok l) :
    l = txs.map fun u =>
      (Key.transactionKey (txHash u), Value.bytes (putUint32LE hgt ++ txMarshal u)) := by
  induction txs generalizing l with
  | nil =>
    rw [stageTxs] at h
    injection h with h1
    simp [h1.symm]
  | cons t rest ih =>
    rw [stageTxs] at h
    by_cases hr : recognizedTxnType t.payloadType
    · rw [if_pos hr] at h
      cases hrest : stageTxs hgt rest with
      | error e => rw [hrest] at h; exact absurd h (by simp)
      | ok l' =>
        rw [hrest] at h
        injection h with h1
        rw [← h1, List.map_cons, ih l' hrest]
    · rw [if_neg hr] at h
      exact absurd h (by simp)

theorem stageTxs_error_of_bad (hgt : Nat) (txs : List Transaction)
    (h : ∃ t ∈ txs, recognizedTxnType t.payloadType = false) :
    stageTxs hgt txs = .error "unsupported transaction type" := by
  induction txs with
  | nil => rcases h with ⟨t, ht, _⟩; cases ht
  | cons u rest ih =>
    rcases h with ⟨t, ht, hbad⟩
    rw [stageTxs]
    rcases List.mem_cons.mp ht with rfl | hmem
    · rw [if_neg (by rw [hbad]; exact Bool.false_ne_true)]
    · by_cases hr : recognizedTxnType u.payloadType
      · rw [if_pos hr, ih ⟨t, hmem, hbad⟩]
      · rw [if_neg hr]

theorem lookupTxPuts (hgt : Nat) (txs : List Transaction) :
    ∀ (st : Store) (t : Transaction), t ∈ txs →
      applyBatch st (txs.map fun u =>
          (Key.transactionKey (txHash u), Value.bytes (putUint32LE hgt ++ txMarshal u)))
        (Key.transactionKey (txHash t))
      = some (Value.bytes (putUint32LE hgt ++ txMarshal t)) := by
  induction txs with
  | nil => intro st t ht; cases ht
  | cons u rest ih =>
    intro st t ht
    rw [List.map_cons, applyBatch]
    by_cases hmem : t ∈ rest
    · exact ih _ t hmem
    · have heq : t = u := by
        rcases List.mem_cons.mp ht with h | h
        · exact h
        · exact absurd h hmem
      subst heq
      rw [applyBatch_not_mem]
      · exact storePut_self _ _ _
      · intro p hp
        simp only [List.mem_map] at hp
        rcases hp with ⟨u', hu', rfl⟩
        simp only [ne_eq, Key.transactionKey.injEq]
        intro hEq
        exact hmem (txHash_inj hEq ▸ hu')

theorem collectTxs_of_getTx (cs : ChainStore) (txs : List Transaction)
    (h : ∀ t ∈ txs, ∃ n, getTx cs (txHash t) = .ok (t, n)) :
    collectTxs cs (txs.map txHash) = .ok txs := by
  induction txs with
  | nil => rfl
  | cons t rest ih =>
    rw [List.map_cons, collectTxs]
    rcases h t (List.mem_cons_self t rest) with ⟨n, hn⟩
    rw [hn, ih (fun u hu => h u (List.mem_cons_of_mem t hu))]

theorem i64_eq_self (x : Int) (hlo : -(2 ^ 63) ≤ x) (hhi : x < 2 ^ 63) : i64 x = x := by
  unfold i64
  have h2 : (2 : Int) ^ 64 = 2 ^ 63 * 2 := by norm_num
  have h0 : 0 ≤ x + 2 ^ 63 := by linarith
  have h1 : x + 2 ^ 63 < 2 ^ 64 := by rw [h2]; linarith
  rw [Int.emod_eq_of_lt h0 h1]
  ring

theorem donationStage_keys (cfg : Config) (env : Env) (cs : ChainStore) (hgt : Nat)
    (dp : List (Key × Value)) (h : donationStage cfg env cs hgt = .ok dp) :
    ∀ p ∈ dp, p.1 = Key.donationKey hgt := by
  rw [donationStage] at h
  split at h
  · split at h
    · exact absurd h (by simp)
    · injection h with h1
      rw [← h1]
      intro p hp
      rw [List.mem_singleton.mp hp]
  · injection h with h1
    rw [← h1]
    intro p hp
    cases hp

theorem persist_ok_inv (cfg : Config) (env : Env) (cs : ChainStore) (b : Block)
    (cs' : ChainStore) (hok : persist cfg env cs b = (cs', none)) :
    ∃ txPuts states root donationPuts,
      stageTxs b.header.height b.transactions = .ok txPuts ∧
      (∀ p ∈ donationPuts, p.1 = Key.donationKey b.header.height) ∧
      cs' = { cs with st := applyBatch cs.st (persistBatch b txPuts root donationPuts),
                      States := some states } := by
  rw [persist] at hok
  split at hok
  · exact absurd hok (by simp)
  rename_i txPuts hstage
  split at hok
  · exact absurd hok (by simp)
  rename_i v states root hgen
  split at hok
  · exact absurd hok (by simp)
  rename_i headerRoot hparse
  split at hok
  · exact absurd hok (by simp)
  split at hok
  · exact absurd hok (by simp)
  rename_i donationPuts hdon
  split at hok
  · exact absurd hok (by simp)
  injection hok with h1 h2
  exact ⟨txPuts, states, root, donationPuts, hstage,
    donationStage_keys cfg env cs b.header.height donationPuts hdon, h1.symm⟩

theorem persist_error_unchanged (cfg : Config) (env : Env) (cs : ChainStore) (b : Block)
    (c : ChainStore) (e : String) (h : persist cfg env cs b = (c, some e)) : c = cs := by
  unfold persist at h
  repeat' split at h
  all_goals
    first
    | (injection h with h1 h2; exact h1.symm)
    | (injection h with h1 h2; exact Option.noConfusion h2)

/-! ## Claim theorems -/

/-- Claim C9: for every transaction and every store state,
`IsDoubleSpend` returns false unconditionally — this store performs no
double-spend detection. -/
theorem isDoubleSpend_always_false (cs : ChainStore) (tx : Transaction) :
    IsDoubleSpend cs tx = false := rfl

/-- Claim C7: `IsBlockInStore` returns false both when no header is
stored under the hash and when the stored header's height is strictly
greater than `currentBlockHeight`; it returns true for every hash whose
persisted header has height at or below `currentBlockHeight`. -/
theorem isBlockInStore_height_gate (cs : ChainStore) (h : Uint256) :
    (cs.st (Key.headerKey h) = none → IsBlockInStore cs h = false) ∧
    (∀ hdr ths, cs.st (Key.headerKey h) = some (Value.headerData hdr ths) →
      (cs.currentBlockHeight < hdr.height → IsBlockInStore cs h = false) ∧
      (hdr.height ≤ cs.currentBlockHeight → IsBlockInStore cs h = true)) := by
  constructor
  · intro hnone
    simp [IsBlockInStore, GetHeader, hnone]
  · intro hdr ths hsome
    constructor
    · intro hgt
      simp only [IsBlockInStore, GetHeader, hsome]
      simp [Nat.not_le_of_lt hgt]
    · intro hle
      simp only [IsBlockInStore, GetHeader, hsome]
      simp [hle]

/-- Witness for C7: in `csB` (chain height 5) the header stored under
hash 42 has height 2 ≤ 5, so it is in store; nothing is stored under
hash 7. -/
theorem isBlockInStore_height_gate_witness :
    IsBlockInStore csB 42 = true ∧ IsBlockInStore csB 7 = false :=
  ⟨((isBlockInStore_height_gate csB 42).2 hdrB [] rfl).2 (by decide),
   (isBlockInStore_height_gate csB 7).1 rfl⟩

/-- Claim C8: `GetStateRoots` fails whenever `toHeight < fromHeight`;
when `fromHeight = toHeight` and the block at that height is persisted
(height-index entry, header record, and a parseable declared root), it
returns exactly one root, the root declared in that height's header. -/
theorem getStateRoots_range_gate (cs : ChainStore) (f t : Nat) :
    (t < f → GetStateRoots cs f t = .error "toHeight is less than fromHeight") ∧
    (∀ hh hdr ths r,
      cs.st (Key.blockhashKey f) = some (Value.hashVal hh) →
      cs.st (Key.headerKey hh) = some (Value.headerData hdr ths) →
      uint256ParseFromBytes hdr.stateRoot = .ok r →
      GetStateRoots cs f f = .ok [r]) := by
  constructor
  · intro hlt
    simp [GetStateRoots, hlt]
  · intro hh hdr ths r h1 h2 h3
    have hcount : f + 1 - f = 1 := by omega
    simp [GetStateRoots, hcount, stateRootsLoop, stateRootAt, GetBlockHash, GetHeader,
      h1, h2, h3]

/-- Witness for C8: in `csB` the block at height 2 is persisted with
declared root 2, so the one-point range returns `[2]`; an inverted
range fails. -/
theorem getStateRoots_range_gate_witness :
    GetStateRoots csB 2 2 = .ok [2] ∧
    GetStateRoots csB 3 1 = .error "toHeight is less than fromHeight" :=
  ⟨(getStateRoots_range_gate csB 2 2).2 42 hdrB [] 2 rfl rfl rfl,
   (getStateRoots_range_gate csB 3 1).1 (by decide)⟩

/-- Claim C2: a block containing a transaction whose payload type is
not one of the eleven recognized kinds fails `persist` with the
"unsupported transaction type" error, and the batch is not committed:
the returned store is the input store, so no staged write became
durable. -/
theorem persist_unsupported_txn_type (cfg : Config) (env : Env) (cs : ChainStore) (b : Block)
    (hbad : ∃ t ∈ b.transactions, recognizedTxnType t.payloadType = false) :
    persist cfg env cs b = (cs, some "unsupported transaction type") := by
  rw [persist, stageTxs_error_of_bad b.header.height b.transactions hbad]

/-- Witness for C2: `bBad` carries a transaction with the unrecognized
payload tag 99. -/
theorem persist_unsupported_txn_type_witness :
    persist cfg0 env0 cs0 bBad = (cs0, some "unsupported transaction type") :=
  persist_unsupported_txn_type cfg0 env0 cs0 bBad ⟨⟨99, 0⟩, by decide, by decide⟩

/-- Claim C3: `CalcNextDonation 0` returns the zero donation record;
for every height `h > 0` the call fails with an error unless the
retrieved previous donation record's height plus the reward adjustment
interval equals exactly `h` (the sum staying in `uint32` range, as the
sum of any stored record's height and the interval constant does). -/
theorem calcNextDonation_boundary_gate (cfg : Config) (env : Env) (cs : ChainStore) :
    CalcNextDonation cfg env cs 0 = .ok ⟨0, 0⟩ ∧
    ∀ height, 0 < height →
      (∀ last, getDonation cfg cs = .ok last →
        last.height + cfg.RewardAdjustInterval < 2 ^ 32 ∧
        last.height + cfg.RewardAdjustInterval ≠ height) →
      ∃ e, CalcNextDonation cfg env cs height = .error e := by
  constructor
  · rfl
  · intro height hpos hmis
    rw [CalcNextDonation, if_neg (Nat.pos_iff_ne_zero.mp hpos)]
    cases hdon : getDonation cfg cs with
    | error e => exact ⟨e, rfl⟩
    | ok last =>
      rcases hmis last hdon with ⟨hlt, hne⟩
      have hcond : (last.height + cfg.RewardAdjustInterval) % 2 ^ 32 ≠ height := by
        rw [Nat.mod_eq_of_lt hlt]
        exact hne
      refine ⟨"invalid height to update donation", ?_⟩
      simp only [ne_eq]
      rw [if_pos hcond]

/-- Witness for C3: on the empty store `cs0` there is no previous
donation record, so height 1 fails, while height 0 yields the zero
record. -/
theorem calcNextDonation_boundary_gate_witness :
    CalcNextDonation cfg0 env0 cs0 0 = .ok ⟨0, 0⟩ ∧
    ∃ e, CalcNextDonation cfg0 env0 cs0 1 = .error e :=
  ⟨(calcNextDonation_boundary_gate cfg0 env0 cs0).1,
   (calcNextDonation_boundary_gate cfg0 env0 cs0).2 1 (by decide)
     (fun last hlast => Except.noConfusion hlast)⟩

/-- Claim C1 (amended): for every block all of whose transactions carry
recognized payload types and whose declared state-root bytes parse,
if the computed state root (from applying the block's transactions to
the state view) differs from the declared root, `persist` returns the
deterministic mismatch error naming both root values, the batch is
never committed, and the store — durable keys and chain pointer — is
returned unchanged. -/
theorem persist_state_root_mismatch (cfg : Config) (env : Env) (cs : ChainStore) (b : Block)
    (states : StateDB) (root headerRoot : Uint256)
    (hrec : ∀ t ∈ b.transactions, recognizedTxnType t.payloadType = true)
    (hgen : env.generateStateRoot cs.States b (b.header.height != 0) true = .ok (states, root))
    (hparse : uint256ParseFromBytes b.header.stateRoot = .ok headerRoot)
    (hne : root ≠ headerRoot) :
    persist cfg env cs b = (cs, some (stateRootMismatchMsg root headerRoot)) := by
  rw [persist, stageTxs_eq_of_recognized b.header.height b.transactions hrec]
  simp only [hgen, hparse]
  rw [if_pos hne]

/-- Witness for C1: `bMism` declares root 2 while `env1` computes
root 1, so `persist` fails with the mismatch message and leaves `cs0`
unchanged. -/
theorem persist_state_root_mismatch_witness :
    persist cfg0 env1 cs0 bMism = (cs0, some (stateRootMismatchMsg 1 2)) :=
  persist_state_root_mismatch cfg0 env1 cs0 bMism stdb0 1 2
    (fun t ht => absurd ht (List.not_mem_nil t)) rfl rfl (by decide)

/-- Counterexample for C1 as stated: `bBad`'s computed state root (1)
differs from its declared root (2), yet `persist` fails with the
payload-type error — which names neither root value — because the
payload-type check runs before the root comparison. -/
theorem persist_state_root_mismatch_counterexample :
    env1.generateStateRoot cs0.States bBad (bBad.header.height != 0) true = .ok (stdb0, 1) ∧
    uint256ParseFromBytes bBad.header.stateRoot = .ok 2 ∧
    (1 : Uint256) ≠ 2 ∧
    persist cfg0 env1 cs0 bBad = (cs0, some "unsupported transaction type") ∧
    "unsupported transaction type" ≠ stateRootMismatchMsg 1 2 ∧
    ¬ List.IsInfix (Nat.repr 1).toList "unsupported transaction type".toList ∧
    ¬ List.IsInfix (Nat.repr 2).toList "unsupported transaction type".toList :=
  ⟨rfl, rfl, by decide, rfl, by decide, by decide, by decide⟩

/-- Claim C4: whenever `CalcNextDonation` succeeds at a positive height
with treasury balance X (the product X * dividendFactor staying in the
int64 range), the returned amount is
((X * dividendFactor) / divisorFactor) / rewardAdjustInterval with
truncating integer division at each step. -/
theorem calcNextDonation_amount_formula (cfg : Config) (env : Env) (cs : ChainStore)
    (height : Nat) (d : Donation) (states : StateDB) (addr : Nat)
    (hpos : 0 < height)
    (haddr : env.toScriptHash cfg.DonationAddress = .ok addr)
    (hstates : cs.States = some states)
    (hlo : -(2 ^ 63) ≤
      states.accountBalance addr cfg.NKNAssetID * cfg.DonationAdjustDividendFactor)
    (hhi : states.accountBalance addr cfg.NKNAssetID * cfg.DonationAdjustDividendFactor
      < 2 ^ 63)
    (hok : CalcNextDonation cfg env cs height = .ok d) :
    d.amount = Int.tdiv
      (Int.tdiv (states.accountBalance addr cfg.NKNAssetID * cfg.DonationAdjustDividendFactor)
        cfg.DonationAdjustDivisorFactor)
      (Int.ofNat cfg.RewardAdjustInterval) := by
  rw [CalcNextDonation, if_neg (Nat.pos_iff_ne_zero.mp hpos)] at hok
  cases hdon : getDonation cfg cs with
  | error e =>
    rw [hdon] at hok
    exact absurd hok (by simp)
  | ok last =>
    rw [hdon] at hok
    simp only [haddr, hstates] at hok
    by_cases hal : (last.height + cfg.RewardAdjustInterval) % 2 ^ 32 ≠ height
    · rw [if_pos hal] at hok
      exact absurd hok (by simp)
    · rw [if_neg hal] at hok
      injection hok with h1
      rw [← h1]
      simp only [i64_eq_self _ hlo hhi]

/-- Witness for C4: on `csD` (previous record at height 0, interval 4,
balance 1000, factors 3 and 7) height 4 succeeds with amount
((1000 * 3) / 7) / 4 = 107. -/
theorem calcNextDonation_amount_formula_witness :
    (⟨4, 107⟩ : Donation).amount =
      Int.tdiv (Int.tdiv (stdb1.accountBalance 9 cfg0.NKNAssetID *
        cfg0.DonationAdjustDividendFactor) cfg0.DonationAdjustDivisorFactor)
        (Int.ofNat cfg0.RewardAdjustInterval) :=
  calcNextDonation_amount_formula cfg0 env0 csD 4 ⟨4, 107⟩ stdb1 9
    (by decide) rfl rfl (by decide) (by decide) rfl

/-- Claim C5: on every successful `SaveBlock` the in-memory chain
pointer afterwards equals the saved block's height and hash; and
whenever `persist` — which performs the durable batch commit — fails,
`SaveBlock` returns that error with the store, pointer included,
unchanged: the pointer is advanced only after a successful commit. -/
theorem saveBlock_pointer_advance (cfg : Config) (env : Env) (cs : ChainStore) (b : Block)
    (fastAdd : Bool) :
    (∀ cs', SaveBlock cfg env cs b fastAdd = (cs', none) →
      cs'.currentBlockHeight = b.header.height ∧ cs'.currentBlockHash = blockHash b) ∧
    (∀ e, (persist cfg env cs b).2 = some e →
      SaveBlock cfg env cs b fastAdd = (cs, some e)) := by
  constructor
  · intro cs' h
    rw [SaveBlock] at h
    split at h
    · exact absurd h (by simp)
    · repeat' split at h
      all_goals
        first
        | (injection h with h1 h2; exact Option.noConfusion h2)
        | (injection h with h1 h2; subst h1; simp [advancePointer])
  · intro e he
    have hpair : persist cfg env cs b = ((persist cfg env cs b).1, some e) := by
      rw [← he]
    have hcs := persist_error_unchanged cfg env cs b (persist cfg env cs b).1 e hpair
    rw [SaveBlock, hpair, hcs]

/-- Witness for C5: after saving `bGood` over `cs0` the pointer equals
`bGood`'s height and hash. -/
theorem saveBlock_pointer_advance_witness :
    (SaveBlock cfg0 env0 cs0 bGood true).1.currentBlockHeight = bGood.header.height ∧
    (SaveBlock cfg0 env0 cs0 bGood true).1.currentBlockHash = blockHash bGood :=
  (saveBlock_pointer_advance cfg0 env0 cs0 bGood true).1 _ rfl

/-- Claim C6: for every block successfully persisted, `GetBlock` at the
block's hash reconstructs it exactly — the trimmed header is combined
with the separately stored transaction records, each decoded after
stripping the 4-byte height prefix, and the resulting transactions
equal the persisted block's transactions. -/
theorem persist_getBlock_roundTrip (cfg : Config) (env : Env) (cs : ChainStore) (b : Block)
    (cs' : ChainStore) (hok : persist cfg env cs b = (cs', none)) :
    GetBlock cs' (blockHash b) = .ok b := by
  obtain ⟨txPuts, states, root, donationPuts, hstage, hdonkeys, rfl⟩ :=
    persist_ok_inv cfg env cs b cs' hok
  have htx := stageTxs_ok_inv b.header.height b.transactions txPuts hstage
  subst htx
  have hheader :
      applyBatch cs.st (persistBatch b (b.transactions.map fun u =>
          (Key.transactionKey (txHash u),
            Value.bytes (putUint32LE b.header.height ++ txMarshal u))) root donationPuts)
        (Key.headerKey (blockHash b))
      = some (Value.headerData b.header (b.transactions.map txHash)) := by
    rw [persistBatch]
    simp only [applyBatch]
    rw [applyBatch_not_mem]
    · rw [storePut_ne _ _ _ _ (by simp), storePut_self]
    · intro p hp
      rcases List.mem_append.mp hp with hp | hp
      · rcases List.mem_map.mp hp with ⟨u, hu, rfl⟩
        simp
      · rcases List.mem_cons.mp hp with rfl | hp
        · simp
        · rcases List.mem_append.mp hp with hp | hp
          · rw [hdonkeys p hp]
            simp
          · rw [List.mem_singleton.mp hp]
            simp
  have hval : ∀ t ∈ b.transactions,
      applyBatch cs.st (persistBatch b (b.transactions.map fun u =>
          (Key.transactionKey (txHash u),
            Value.bytes (putUint32LE b.header.height ++ txMarshal u))) root donationPuts)
        (Key.transactionKey (txHash t))
      = some (Value.bytes (putUint32LE b.header.height ++ txMarshal t)) := by
    intro t ht
    rw [persistBatch]
    simp only [applyBatch]
    rw [applyBatch_append, applyBatch_not_mem]
    · exact lookupTxPuts b.header.height b.transactions _ t ht
    · intro p hp
      rcases List.mem_cons.mp hp with rfl | hp
      · simp
      · rcases List.mem_append.mp hp with hp | hp
        · rw [hdonkeys p hp]
          simp
        · rw [List.mem_singleton.mp hp]
          simp
  simp only [GetBlock, hheader]
  rw [collectTxs_of_getTx _ _ ?hget]
  case hget =>
    intro t ht
    refine ⟨getUint32LE (putUint32LE b.header.height ++ txMarshal t), ?_⟩
    simp only [getTx]
    rw [hval t ht]
    simp [putUint32LE, txMarshal, txUnmarshal, Except.map]

/-- Witness for C6: persisting `bGood` over `cs0` and reading it back
by hash yields `bGood` itself. -/
theorem persist_getBlock_roundTrip_witness :
    GetBlock (persist cfg0 env0 cs0 bGood).1 (blockHash bGood) = .ok bGood :=
  persist_getBlock_roundTrip cfg0 env0 cs0 bGood (persist cfg0 env0 cs0 bGood).1 rfl

/-- Claim C10: when the stored schema version matches, the genesis
block is in store, the chain pointer and current header load, but the
current-state-root read fails, `InitLedgerStoreWithGenesisBlock`
returns height 0 with no error: the read failure is swallowed and no
state view is constructed (the `States` field is left as it was). -/
theorem initLedger_swallows_root_read_failure (cfg : Config) (env : Env) (cs : ChainStore)
    (genesisBlock : Block) (h : Uint256) (ht : Nat) (hdr : Header) (ths : List Uint256)
    (hver : cs.st Key.versionKey = some (Value.bytes [cfg.DBVersion]))
    (hgen : IsBlockInStore cs (blockHash genesisBlock) = true)
    (hptr : cs.st Key.currentBlockHashKey = some (Value.hashHeight h ht))
    (hhdr : cs.st (Key.headerKey h) = some (Value.headerData hdr ths))
    (hroot : ∀ r, cs.st Key.currentStateTrie ≠ some (Value.hashVal r)) :
    InitLedgerStoreWithGenesisBlock cfg env cs genesisBlock =
      ({ cs with currentBlockHash := h, currentBlockHeight := ht,
                 headerCache := hdr :: cs.headerCache }, 0, none) := by
  have hv : dbVersionByte cs = cfg.DBVersion := by rw [dbVersionByte, hver]
  have hp : getCurrentBlockHashFromDB cs = .ok (h, ht) := by
    rw [getCurrentBlockHashFromDB, hptr]
  have hg : GetHeader { cs with currentBlockHash := h, currentBlockHeight := ht } h
      = .ok hdr := by
    simp [GetHeader, hhdr]
  rw [InitLedgerStoreWithGenesisBlock, if_neg (by rw [hv]; exact fun hc => hc rfl),
    if_pos hgen]
  simp only [hp, hg]
  cases hcst : cs.st Key.currentStateTrie with
  | none => simp [GetCurrentBlockStateRoot, hcst]
  | some v =>
    cases v with
    | bytes bs => simp [GetCurrentBlockStateRoot, hcst]
    | headerData hdr2 ths2 => simp [GetCurrentBlockStateRoot, hcst]
    | hashVal r => exact absurd hcst (hroot r)
    | hashHeight h2 ht2 => simp [GetCurrentBlockStateRoot, hcst]
    | donationRec h2 a2 => simp [GetCurrentBlockStateRoot, hcst]

/-- Witness for C10: `csI` matches the schema version, holds genesis
and the pointer record, but has no current-state-root record; init
returns height 0 with no error and leaves `States` untouched. -/
theorem initLedger_swallows_root_read_failure_witness :
    InitLedgerStoreWithGenesisBlock cfg0 env0 csI bGood =
      ({ csI with currentBlockHash := blockHash bGood, currentBlockHeight := 0,
                  headerCache := hdrG :: csI.headerCache }, 0, none) :=
  initLedger_swallows_root_read_failure cfg0 env0 csI bGood (blockHash bGood) 0 hdrG []
    rfl rfl rfl rfl (fun r hc => Option.noConfusion hc)

end NknStore
